import Mathlib

set_option maxRecDepth 8000

namespace CodeReview

/-- Model of an ECMAScript number value as produced by string-to-number
conversion: NaN, a signed infinity (`inf true` is positive infinity), or a
finite value. Finite values are modelled as exact rationals; IEEE-754
rounding, overflow to infinity and signed zero are not modelled, which
coincides with double semantics on every value considered here. -/
inductive JSNum where
  | nan : JSNum
  | inf : Bool → JSNum
  | num : ℚ → JSNum
  deriving DecidableEq

/-- Whitespace characters trimmed by ECMAScript ToNumber on strings
(ASCII whitespace, no-break space, BOM). -/
def isJsWhitespace (c : Char) : Bool :=
  c = ' ' || c = '\t' || c = '\n' || c = '\r' ||
  c = Char.ofNat 11 || c = Char.ofNat 12 || c = Char.ofNat 0xA0 ||
  c = Char.ofNat 0xFEFF

/-- Strip leading and trailing JS whitespace. -/
def trimJs (cs : List Char) : List Char :=
  ((cs.dropWhile isJsWhitespace).reverse.dropWhile isJsWhitespace).reverse

/-- Numeric value of a decimal digit character. -/
def digitVal (c : Char) : Nat := c.toNat - 48

/-- Split a character list into its longest decimal-digit prefix and the rest. -/
def spanDigits (cs : List Char) : List Char × List Char :=
  (cs.takeWhile Char.isDigit, cs.dropWhile Char.isDigit)

/-- Value of a hexadecimal digit character, if it is one. -/
def hexVal (c : Char) : Option Nat :=
  if c.isDigit then some (c.toNat - 48)
  else if 'a' ≤ c ∧ c ≤ 'f' then some (c.toNat - 87)
  else if 'A' ≤ c ∧ c ≤ 'F' then some (c.toNat - 55)
  else none

/-- Read a nonempty digit string in the given radix; `none` when some
character is not a digit of that radix. -/
def radixVal (radix : Nat) (cs : List Char) : Option Nat :=
  cs.foldl
    (fun acc c =>
      match acc, hexVal c with
      | some a, some v => if v < radix then some (radix * a + v) else none
      | _, _ => none)
    (some 0)

/-- ECMAScript `0x`/`0o`/`0b` literal body: NaN unless nonempty and all
digits of the radix. -/
def parseRadix (radix : Nat) (cs : List Char) : JSNum :=
  if cs = [] then .nan
  else
    match radixVal radix cs with
    | some n => .num n
    | none => .nan

/-- Value of a decimal digit string. -/
def decNat (cs : List Char) : Nat := cs.foldl (fun a c => 10 * a + digitVal c) 0

/-- Optional exponent part of a decimal literal (`e`/`E`, optional sign,
required digits, nothing after); applies it to the mantissa given as a
numerator/denominator pair of naturals. -/
def parseExpPart (cs : List Char) (num den : Nat) : Option (Nat × Nat) :=
  match cs with
  | [] => some (num, den)
  | c :: rest =>
    if c = 'e' ∨ c = 'E' then
      let sgnRest : Bool × List Char :=
        match rest with
        | '+' :: r => (false, r)
        | '-' :: r => (true, r)
        | r => (false, r)
      let ds := spanDigits sgnRest.2
      if ds.1 = [] ∨ ds.2 ≠ [] then none
      else
        some (if sgnRest.1 then (num, den * 10 ^ decNat ds.1)
              else (num * 10 ^ decNat ds.1, den))
    else none

/-- ECMAScript StrUnsignedDecimalLiteral without the Infinity case:
digits, optional point and fraction digits, optional exponent. The value is
returned as a numerator/denominator pair of naturals. -/
def parseDecLit (cs : List Char) : Option (Nat × Nat) :=
  let ip := spanDigits cs
  match ip.2 with
  | '.' :: rest2 =>
    let fp := spanDigits rest2
    if ip.1 = [] ∧ fp.1 = [] then none
    else parseExpPart fp.2 (decNat ip.1 * 10 ^ fp.1.length + decNat fp.1) (10 ^ fp.1.length)
  | _ => if ip.1 = [] then none else parseExpPart ip.2 (decNat ip.1) 1

/-- Signed part of the string numeric literal: `Infinity` or a decimal
literal, NaN otherwise. -/
def parseSigned (cs : List Char) (neg : Bool) : JSNum :=
  if cs = "Infinity".toList then .inf (!neg)
  else
    match parseDecLit cs with
    | some nd => .num (mkRat (if neg then -(nd.1 : ℤ) else (nd.1 : ℤ)) nd.2)
    | none => .nan

/-- Model of the ECMAScript `Number(string)` conversion used by the source's
`Number(aiResponse.lineNumber)`: trim whitespace, empty gives 0, `0x`/`0o`/`0b`
radix literals, otherwise an optionally signed decimal literal or `Infinity`;
anything else is NaN. Finite results are exact rationals (see `JSNum`). -/
def jsToNumber (s : String) : JSNum :=
  match trimJs s.toList with
  | [] => .num 0
  | '0' :: c :: rest =>
    if c = 'x' ∨ c = 'X' then parseRadix 16 rest
    else if c = 'o' ∨ c = 'O' then parseRadix 8 rest
    else if c = 'b' ∨ c = 'B' then parseRadix 2 rest
    else parseSigned ('0' :: c :: rest) false
  | '+' :: rest => parseSigned rest false
  | '-' :: rest => parseSigned rest true
  | cs => parseSigned cs false


/-- PR metadata, from the source's `PRDetails` interface. -/
structure PRDetails where
  owner : String
  repo : String
  pull_number : Nat
  title : String
  description : String
  deriving DecidableEq

/-- One line-change record produced by the `parse-diff` dependency. An added
line carries its new-file number in `ln`; a deleted line carries its old-file
number in `ln`; a context (normal) line carries old number `ln1` and new
number `ln2`. -/
inductive Change where
  | add (content : String) (ln : Nat)
  | del (content : String) (ln : Nat)
  | normal (content : String) (ln1 ln2 : Nat)
  deriving DecidableEq

/-- The text of the change line. -/
def Change.content : Change → String
  | .add s _ => s
  | .del s _ => s
  | .normal s _ _ => s

/-- The `ln` field as JavaScript sees it: present on add/del changes,
`undefined` on normal changes. -/
def Change.lnField : Change → Option Nat
  | .add _ n => some n
  | .del _ n => some n
  | .normal _ _ _ => none

/-- The `ln2` field as JavaScript sees it: present on normal changes only. -/
def Change.ln2Field : Change → Option Nat
  | .normal _ _ n2 => some n2
  | _ => none

/-- Positivity of a change's line numbers, as holds for every line of a
well-formed unified diff (hunk line numbers count from 1). -/
def Change.positive : Change → Prop
  | .add _ n => 0 < n
  | .del _ n => 0 < n
  | .normal _ n1 n2 => 0 < n1 ∧ 0 < n2

/-- The new-file line number of a change, per the spec's LineChange data
model: additions and context lines have one, deletions do not. -/
def Change.newLineNumber : Change → Option Nat
  | .add _ n => some n
  | .del _ _ => none
  | .normal _ _ n2 => some n2

/-- The old-file line number of a change, per the spec's LineChange data
model: deletions and context lines have one, additions do not. -/
def Change.oldLineNumber : Change → Option Nat
  | .add _ _ => none
  | .del _ n => some n
  | .normal _ n1 _ => some n1

/-- Modelled from the spec (refinement target): the spec's line-number
resolution — the new-file line number when present, otherwise the old-file
number. -/
def resolveSpec (newLn oldLn : Option Nat) : Option Nat :=
  match newLn with
  | some n => some n
  | none => oldLn

/-- One diff chunk (hunk) from `parse-diff`: the hunk header line
(`content`) and the ordered change records. -/
structure Chunk where
  content : String
  changes : List Change
  deriving DecidableEq

/-- One file entry from `parse-diff`. Only the fields the source reads are
modelled: `to` is the post-change path (absent when `parse-diff` leaves it
undefined; the string "/dev/null" when the file was deleted) and `chunks`
the ordered chunk list. -/
structure File where
  «to» : Option String
  chunks : List Chunk
  deriving DecidableEq

/-- One validated model finding, from the source's zod `ReviewComment`
schema object: a numeric-text line number and a markdown comment. -/
structure ReviewComment where
  lineNumber : String
  reviewComment : String
  deriving DecidableEq

/-- The platform-ready comment unit built by `createComment`
(`{body, path, line}`). `line` is a JavaScript number (see `JSNum`). -/
structure ReviewCommentRecord where
  body : String
  path : String
  line : JSNum
  deriving DecidableEq

/-- String interpolation of a possibly-undefined JS string value:
`undefined` renders as the text "undefined". -/
def optStr : Option String → String
  | none => "undefined"
  | some s => s

/-- String interpolation of a possibly-undefined JS number value. -/
def optNatStr : Option Nat → String
  | none => "undefined"
  | some n => toString n

/-- One rendered diff line of the prompt, from the source's
`${c.ln ? c.ln : c.ln2} ${c.content}`: the `ln` field when truthy
(present and nonzero), otherwise the `ln2` field. -/
def renderChange (c : Change) : String :=
  (match c.lnField with
   | some n => if n ≠ 0 then toString n else optNatStr c.ln2Field
   | none => optNatStr c.ln2Field) ++ " " ++ c.content

/-- The review prompt string built per (file, chunk) pair, translated from
the source's `createPrompt` template literal. -/
def createPrompt (file : File) (chunk : Chunk) (prDetails : PRDetails) : String :=
  "Your task is to review pull requests. Instructions:\n" ++
  "- Do not give positive comments or compliments.\n" ++
  "- Provide comments and suggestions ONLY if there is something to improve, otherwise \"reviews\" should be an empty array.\n" ++
  "- Write the comment in GitHub Markdown format.\n" ++
  "- Use the given description only for the overall context and only comment the code.\n" ++
  "- IMPORTANT: NEVER suggest adding comments to the code.\n\n" ++
  "Review the following code diff in the file \"" ++ optStr file.«to» ++
  "\" and take the pull request title and description into account when writing the response.\n  \n" ++
  "Pull request title: " ++ prDetails.title ++ "\n" ++
  "Pull request description:\n\n---\n" ++ prDetails.description ++ "\n---\n\n" ++
  "Git diff to review:\n\n```diff\n" ++ chunk.content ++ "\n" ++
  String.intercalate "\n" (chunk.changes.map renderChange) ++ "\n```\n"

/-- The comment mapper, translated from the source's `createComment`: for
each finding, if `file.«to»` is JS-falsy (undefined or the empty string) the
finding maps to nothing, otherwise to one `{body, path, line}` record with
`line = Number(lineNumber)`. The chunk parameter is unused, as in the
source. -/
def createComment (file : File) (_chunk : Chunk) (aiResponses : List ReviewComment) :
    List ReviewCommentRecord :=
  aiResponses.flatMap fun aiResponse =>
    match file.«to» with
    | none => []
    | some s =>
      if s = "" then []
      else [{ body := aiResponse.reviewComment, path := s,
              line := jsToNumber aiResponse.lineNumber }]


/-- The `parsed` payload of a chat choice message after schema validation:
the `reviews` array. -/
structure ParsedContent where
  reviews : List ReviewComment
  deriving DecidableEq

/-- A chat response message; `parsed` is absent when the SDK attaches no
parsed payload. -/
structure ChatMessage where
  parsed : Option ParsedContent
  deriving DecidableEq

/-- One chat completion choice; the source reads `message` defensively
(`message?.`), so it is modelled as optional. -/
structure Choice where
  message : Option ChatMessage
  deriving DecidableEq

/-- A chat completion response: the list of choices. -/
structure ChatResponse where
  choices : List Choice
  deriving DecidableEq

/-- The review requester, translated from the source's `getAIResponse`. The
model-collaborator call is modelled at its boundary as an `Except`: `.error`
stands for any thrown failure (transport error, timeout, malformed JSON,
zod schema mismatch), all of which the source's try/catch converts to
`null`. On a response, the source evaluates
`response.choices[0].message?.parsed?.reviews || null`: an absent
`choices[0]` makes the preceding property access throw (caught, `null`);
an absent `message` or `parsed` makes `reviews` undefined (`|| null` gives
`null`); an array — even the empty array, which is truthy — is returned
as is. -/
def getAIResponse (result : Except String ChatResponse) :
    Option (List ReviewComment) :=
  match result with
  | .error _ => none
  | .ok response =>
    match response.choices.head? with
    | none => none
    | some choice =>
      match choice.message with
      | none => none
      | some msg =>
        match msg.parsed with
        | none => none
        | some parsed => some parsed.reviews

/-- Records and prompts contributed by one chunk: the prompt is always
built; the chunk's records are empty when the model call yields `null`
(`if (aiResponse)`), otherwise `createComment`'s output. -/
def chunkStep (ai : String → Option (List ReviewComment)) (prDetails : PRDetails)
    (file : File) (acc : List ReviewCommentRecord × List String) (chunk : Chunk) :
    List ReviewCommentRecord × List String :=
  let prompt := createPrompt file chunk prDetails
  match ai prompt with
  | none => (acc.1, acc.2 ++ [prompt])
  | some aiResponse => (acc.1 ++ createComment file chunk aiResponse, acc.2 ++ [prompt])

/-- The per-file body of `analyzeCode`'s loop: a file whose `to` is
"/dev/null" is skipped (`continue`), otherwise every chunk is processed in
order. -/
def fileStep (ai : String → Option (List ReviewComment)) (prDetails : PRDetails)
    (acc : List ReviewCommentRecord × List String) (file : File) :
    List ReviewCommentRecord × List String :=
  if file.«to» = some "/dev/null" then acc
  else file.chunks.foldl (chunkStep ai prDetails file) acc

/-- The analysis loop, translated from the source's `analyzeCode`. The model
collaborator is the function `ai` from the rendered prompt to the
`getAIResponse` outcome. The first component is the accumulated comment
list the source returns; the second instruments the prompts the loop builds
(source line `const prompt = createPrompt(file, chunk, prDetails)`), in
order, for reasoning about which prompts are ever constructed. -/
def analyzeCode (ai : String → Option (List ReviewComment))
    (parsedDiff : List File) (prDetails : PRDetails) :
    List ReviewCommentRecord × List String :=
  parsedDiff.foldl (fileStep ai prDetails) ([], [])

/-- Glob segment matching with the standard shell wildcards: `*` matches any
character sequence within the segment, `?` any single character, everything
else literally. Fuel-based recursion (the fuel is an upper bound on the
total remaining length, so it is never exhausted when called through
`wildMatch`). -/
def wildMatchAux : Nat → List Char → List Char → Bool
  | 0, _, _ => false
  | _ + 1, [], s => s.isEmpty
  | fuel + 1, '*' :: ps, [] => wildMatchAux fuel ps []
  | fuel + 1, '*' :: ps, c :: cs =>
    wildMatchAux fuel ps (c :: cs) || wildMatchAux fuel ('*' :: ps) cs
  | fuel + 1, '?' :: ps, _ :: cs => wildMatchAux fuel ps cs
  | fuel + 1, p :: ps, c :: cs => p = c && wildMatchAux fuel ps cs
  | _ + 1, _ :: _, [] => false

/-- Wildcard matching of one path segment against one pattern segment. -/
def wildMatch (ps s : List Char) : Bool :=
  wildMatchAux (ps.length + s.length + 1) ps s

/-- Split a character list into its `/`-separated segments (the empty list
yields one empty segment, as `String.splitOn` does). -/
def splitSegs : List Char → List (List Char)
  | [] => [[]]
  | '/' :: cs => [] :: splitSegs cs
  | c :: cs =>
    match splitSegs cs with
    | [] => [[c]]
    | seg :: rest => (c :: seg) :: rest

/-- Modelled from the spec: the `minimatch` dependency's glob matching, per
the spec's stated semantics — case-sensitive matching of the full relative
path, `*` matching within a path segment, standard shell-glob wildcards.
Pattern and path are split on `/` and matched segment by segment. -/
def minimatchM (target pattern : String) : Bool :=
  let tsegs := splitSegs target.toList
  let psegs := splitSegs pattern.toList
  tsegs.length = psegs.length &&
    (List.zip psegs tsegs).all fun pq => wildMatch pq.1 pq.2


/-- The path filter, translated from the source's `filteredDiff`
expression: keep exactly the files for which no exclusion pattern matches
`file.to ?? ""`. -/
def filteredDiff (excludePatterns : List String) (parsedDiff : List File) : List File :=
  parsedDiff.filter fun file =>
    !(excludePatterns.any fun pattern => minimatchM (file.«to».getD "") pattern)

/-- The triggering event payload fields the source reads: the action and,
for synchronize events, the before/after revisions. -/
structure EventData where
  action : String
  before : String
  after : String
  deriving DecidableEq

/-- One platform-collaborator call issued by `main`: the full-range diff
fetch (`octokit.pulls.get` with diff media type), the two-revision diff
fetch (`octokit.repos.compareCommits`), or the batched review submission
(`octokit.pulls.createReview`). -/
inductive Call where
  | getDiff (owner repo : String) (pull_number : Nat)
  | compareCommits (owner repo base head : String)
  | createReview (owner repo : String) (pull_number : Nat)
      (comments : List ReviewCommentRecord) (event : String)
  deriving DecidableEq

/-- Whether a platform call is the review submission. -/
def Call.isCreateReview : Call → Bool
  | .createReview .. => true
  | _ => false

/-- The review submitter, translated from the source's
`createReviewComment`: one `createReview` call with all records and the
fixed "COMMENT" disposition. -/
def createReviewComment (owner repo : String) (pull_number : Nat)
    (comments : List ReviewCommentRecord) : Call :=
  Call.createReview owner repo pull_number comments "COMMENT"

/-- The observable outcome of one run of `main`: the platform calls issued
(PR-metadata fetches excluded — they happen unconditionally before the
modelled region), the prompts built, and the process exit code. Exit code 0
models `main` returning without reaching `process.exit(1)`. -/
structure RunResult where
  calls : List Call
  prompts : List String
  exitCode : Nat
  deriving DecidableEq

/-- The tail of `main` after the diff text is obtained, translated from the
source: a `null` or empty diff (`if (!diff)`) ends the run; otherwise the
diff is parsed, the exclusion patterns are split on commas and trimmed, the
files are filtered, the analysis loop runs, and a nonempty comment list is
submitted in one `createReviewComment` call. -/
def mainAfterDiff (parse : String → List File) (ai : String → Option (List ReviewComment))
    (prDetails : PRDetails) (excludeInput : String) (calls0 : List Call)
    (diff : Option String) : RunResult :=
  match diff with
  | none => ⟨calls0, [], 0⟩
  | some d =>
    if d = "" then ⟨calls0, [], 0⟩
    else
      let excludePatterns := (excludeInput.splitOn ",").map String.trim
      let res := analyzeCode ai (filteredDiff excludePatterns (parse d)) prDetails
      if 0 < res.1.length then
        ⟨calls0 ++ [createReviewComment prDetails.owner prDetails.repo
            prDetails.pull_number res.1], res.2, 0⟩
      else ⟨calls0, res.2, 0⟩

/-- The event dispatch of `main`, translated from the source: an "opened"
action fetches the PR's full-range diff, a "synchronize" action fetches the
diff between the event's before and after revisions (`String(response.data)`
is always a string, so that diff is non-null), and any other action logs and
returns with no diff fetch. The fetched diff texts are inputs (`openedDiff`
for the full-range fetch, `syncDiff` for the compare fetch), since the
platform client is an external collaborator. -/
def runMain (parse : String → List File) (ai : String → Option (List ReviewComment))
    (prDetails : PRDetails) (eventData : EventData) (openedDiff : Option String)
    (syncDiff : String) (excludeInput : String) : RunResult :=
  if eventData.action = "opened" then
    mainAfterDiff parse ai prDetails excludeInput
      [Call.getDiff prDetails.owner prDetails.repo prDetails.pull_number] openedDiff
  else if eventData.action = "synchronize" then
    mainAfterDiff parse ai prDetails excludeInput
      [Call.compareCommits prDetails.owner prDetails.repo eventData.before eventData.after]
      (some syncDiff)
  else ⟨[], [], 0⟩

/-- The comment records one chunk contributes: none when the model call
yields the `null` outcome, otherwise `createComment`'s output. -/
def chunkRecords (ai : String → Option (List ReviewComment)) (prDetails : PRDetails)
    (file : File) (chunk : Chunk) : List ReviewCommentRecord :=
  match ai (createPrompt file chunk prDetails) with
  | none => []
  | some aiResponse => createComment file chunk aiResponse

/-- The comment records one file contributes to the analysis loop. -/
def fileRecords (ai : String → Option (List ReviewComment)) (prDetails : PRDetails)
    (file : File) : List ReviewCommentRecord :=
  if file.«to» = some "/dev/null" then []
  else file.chunks.flatMap (chunkRecords ai prDetails file)

/-- The prompts one file contributes to the analysis loop. -/
def filePrompts (prDetails : PRDetails) (file : File) : List String :=
  if file.«to» = some "/dev/null" then []
  else file.chunks.map fun chunk => createPrompt file chunk prDetails

lemma foldl_chunkStep (ai : String → Option (List ReviewComment)) (prDetails : PRDetails)
    (file : File) :
    ∀ (chunks : List Chunk) (acc : List ReviewCommentRecord × List String),
      chunks.foldl (chunkStep ai prDetails file) acc
        = (acc.1 ++ chunks.flatMap (chunkRecords ai prDetails file),
           acc.2 ++ chunks.map fun chunk => createPrompt file chunk prDetails) := by
  intro chunks
  induction chunks with
  | nil => intro acc; simp
  | cons c cs ih =>
    intro acc
    rw [List.foldl_cons, ih]
    cases h : ai (createPrompt file c prDetails) <;>
      simp [chunkStep, chunkRecords, h]

lemma foldl_fileStep (ai : String → Option (List ReviewComment)) (prDetails : PRDetails) :
    ∀ (files : List File) (acc : List ReviewCommentRecord × List String),
      files.foldl (fileStep ai prDetails) acc
        = (acc.1 ++ files.flatMap (fileRecords ai prDetails),
           acc.2 ++ files.flatMap (filePrompts prDetails)) := by
  intro files
  induction files with
  | nil => intro acc; simp
  | cons f fs ih =>
    intro acc
    rw [List.foldl_cons]
    by_cases hd : f.«to» = some "/dev/null"
    · simp [fileStep, hd, ih, fileRecords, filePrompts]
    · simp [fileStep, hd, foldl_chunkStep, ih, fileRecords, filePrompts]

/-- The analysis loop computes, in order, the concatenation of the per-file
record and prompt contributions. -/
lemma analyzeCode_eq (ai : String → Option (List ReviewComment))
    (prDetails : PRDetails) (files : List File) :
    analyzeCode ai files prDetails
      = (files.flatMap (fileRecords ai prDetails),
         files.flatMap (filePrompts prDetails)) := by
  simpa [analyzeCode] using foldl_fileStep ai prDetails files ([], [])

/-- When the file's target path is a nonempty string, `createComment` maps
each finding to exactly one record, in order. -/
lemma createComment_eq_map (file : File) (chunk : Chunk)
    (aiResponses : List ReviewComment) (s : String)
    (h1 : file.«to» = some s) (h2 : s ≠ "") :
    createComment file chunk aiResponses
      = aiResponses.map fun r =>
          ⟨r.reviewComment, s, jsToNumber r.lineNumber⟩ := by
  induction aiResponses with
  | nil => simp [createComment]
  | cons r rs ih =>
    simp only [createComment, List.flatMap_cons, List.map_cons] at ih ⊢
    rw [ih, h1]
    simp [h2]

/-- C1: the claim that every record's `line` is a non-negative base-10
integer fails on the code: `Number` accepts a sign (so "-5" gives the
negative line −5), fractions ("3.5" gives 7/2, whose denominator is 2, not
an integer) and hex ("0x10" gives 16, not a base-10 reading), and yields
NaN on "abc" — while a record is emitted in every one of these cases. -/
theorem c1_counterexample :
    createComment ⟨some "a.ts", []⟩ ⟨"@@ -1,4 +1,4 @@", []⟩
        [⟨"-5", "m1"⟩, ⟨"3.5", "m2"⟩, ⟨"0x10", "m3"⟩, ⟨"abc", "m4"⟩]
      = [⟨"m1", "a.ts", .num (-5)⟩, ⟨"m2", "a.ts", .num (mkRat 7 2)⟩,
         ⟨"m3", "a.ts", .num 16⟩, ⟨"m4", "a.ts", .nan⟩]
    ∧ ((-5 : ℚ) < 0) ∧ (mkRat 7 2).den = 2 :=
  ⟨by decide, by norm_num, by decide⟩

/-- C1 (amended): for every record emitted by `createComment`, the `line`
field is the ECMAScript `Number` conversion of the finding's `lineNumber`
string — which may be negative, non-integral, a hex/octal/binary reading, or
NaN — and a record is still emitted for every finding whatever that
conversion yields. -/
theorem c1_amended (file : File) (chunk : Chunk) (aiResponses : List ReviewComment)
    (s : String) (h1 : file.«to» = some s) (h2 : s ≠ "") :
    (createComment file chunk aiResponses).map ReviewCommentRecord.line
        = aiResponses.map (fun r => jsToNumber r.lineNumber)
    ∧ (createComment file chunk aiResponses).length = aiResponses.length := by
  rw [createComment_eq_map file chunk aiResponses s h1 h2]
  constructor
  · simp only [List.map_map]
    rfl
  · simp

theorem c1_amended_witness :
    (createComment ⟨some "a.ts", []⟩ ⟨"", []⟩ [⟨"abc", "m"⟩]).map ReviewCommentRecord.line
        = [⟨"abc", "m"⟩].map (fun r : ReviewComment => jsToNumber r.lineNumber)
    ∧ (createComment ⟨some "a.ts", []⟩ ⟨"", []⟩ [⟨"abc", "m"⟩]).length = 1 :=
  c1_amended ⟨some "a.ts", []⟩ ⟨"", []⟩ [⟨"abc", "m"⟩] "a.ts" rfl (by decide)

/-- C2: the claim fails on the code: the deletion sentinel "/dev/null" is a
truthy JavaScript string, so `createComment`'s `!file.to` guard does not
suppress it — a record with path "/dev/null" is emitted. -/
theorem c2_counterexample :
    createComment ⟨some "/dev/null", []⟩ ⟨"@@ -1 +0,0 @@", []⟩ [⟨"3", "m"⟩]
      = [⟨"m", "/dev/null", .num 3⟩]
    ∧ ([⟨"m", "/dev/null", .num 3⟩] : List ReviewCommentRecord) ≠ [] :=
  ⟨by decide, by decide⟩

/-- C2 (amended): `createComment` produces an empty sequence when the
file's target path is absent or the empty string (the JS-falsy values
caught by `!file.to`), regardless of the findings; the "/dev/null" deletion
sentinel is not caught by this guard — such files are instead skipped
upstream by `analyzeCode`. -/
theorem c2_amended (file : File) (chunk : Chunk) (aiResponses : List ReviewComment)
    (h : file.«to» = none ∨ file.«to» = some "") :
    createComment file chunk aiResponses = [] := by
  rcases h with h | h <;>
    · induction aiResponses with
      | nil => simp [createComment]
      | cons r rs ih => simp [createComment, h] at ih ⊢

theorem c2_amended_witness :
    createComment ⟨none, []⟩ ⟨"", []⟩ [⟨"1", "b"⟩] = [] :=
  c2_amended ⟨none, []⟩ ⟨"", []⟩ [⟨"1", "b"⟩] (Or.inl rfl)

/-- C10: for a file whose target path is a nonempty string, `createComment`
emits exactly one record per finding, in order, with the finding's
`reviewComment` as the body verbatim and `Number(lineNumber)` as the line;
no finding is dropped for its `lineNumber` content — the empty string
converts to 0 and non-numeric text to NaN, and the record is emitted either
way. -/
theorem c10_per_finding (file : File) (chunk : Chunk)
    (aiResponses : List ReviewComment) (s : String)
    (h1 : file.«to» = some s) (h2 : s ≠ "") :
    createComment file chunk aiResponses
        = aiResponses.map (fun r => ⟨r.reviewComment, s, jsToNumber r.lineNumber⟩)
    ∧ jsToNumber "" = JSNum.num 0
    ∧ jsToNumber "three" = JSNum.nan :=
  ⟨createComment_eq_map file chunk aiResponses s h1 h2, by decide, by decide⟩

theorem c10_per_finding_witness :
    createComment ⟨some "b.ts", []⟩ ⟨"", []⟩ [⟨"", "x"⟩, ⟨"three", "y"⟩]
        = [⟨"", "x"⟩, ⟨"three", "y"⟩].map
            (fun r : ReviewComment => ⟨r.reviewComment, "b.ts", jsToNumber r.lineNumber⟩)
    ∧ jsToNumber "" = JSNum.num 0
    ∧ jsToNumber "three" = JSNum.nan :=
  c10_per_finding ⟨some "b.ts", []⟩ ⟨"", []⟩ [⟨"", "x"⟩, ⟨"three", "y"⟩] "b.ts" rfl
    (by decide)

/-- C4: the path filter removes exactly the files whose target path matches
at least one configured glob pattern: membership in the filtered list is
equivalent to membership in the input with no pattern matching; the result
is a sublist of the input (so nothing is added or reordered); an empty
pattern list removes nothing; and concretely a file "README.md" is removed
when "*.md" is configured. -/
theorem c4_path_filter (patterns : List String) (files : List File) (f : File) :
    (f ∈ filteredDiff patterns files
        ↔ f ∈ files ∧ ∀ p ∈ patterns, minimatchM (f.«to».getD "") p = false)
    ∧ List.Sublist (filteredDiff patterns files) files
    ∧ filteredDiff [] files = files
    ∧ filteredDiff ["*.md"] [⟨some "README.md", []⟩] = [] := by
  refine ⟨?_, List.filter_sublist _, by simp [filteredDiff], by decide⟩
  simp [filteredDiff, List.mem_filter, List.any_eq_false]

/-- C5: the review requester converts every thrown failure (transport
error, timeout, malformed response, schema-validation failure — all modelled
as the `.error` outcome of the collaborator call) and every response without
a parsed `reviews` array into `null`, never propagating; a successful
response whose parsed `reviews` is the empty array yields the empty
sequence, which is distinct from `null`. -/
theorem c5_requester (e : String) (resp : ChatResponse) (choice : Choice)
    (msg : ChatMessage) :
    getAIResponse (Except.error e) = none
    ∧ (resp.choices = [] → getAIResponse (Except.ok resp) = none)
    ∧ (resp.choices.head? = some choice → choice.message = none →
        getAIResponse (Except.ok resp) = none)
    ∧ (resp.choices.head? = some choice → choice.message = some msg →
        msg.parsed = none → getAIResponse (Except.ok resp) = none)
    ∧ (resp.choices.head? = some choice → choice.message = some msg →
        msg.parsed = some ⟨[]⟩ →
        getAIResponse (Except.ok resp) = some []
          ∧ (some [] : Option (List ReviewComment)) ≠ none) := by
  refine ⟨rfl, ?_, ?_, ?_, ?_⟩
  · intro h; simp [getAIResponse, h]
  · intro h1 h2; simp [getAIResponse, h1, h2]
  · intro h1 h2 h3; simp [getAIResponse, h1, h2, h3]
  · intro h1 h2 h3; simp [getAIResponse, h1, h2, h3]

theorem c5_requester_witness :
    getAIResponse (Except.ok ⟨[⟨some ⟨some ⟨[]⟩⟩⟩]⟩) = some []
      ∧ (some [] : Option (List ReviewComment)) ≠ none :=
  (c5_requester "err" ⟨[⟨some ⟨some ⟨[]⟩⟩⟩]⟩ ⟨some ⟨some ⟨[]⟩⟩⟩
    ⟨some ⟨[]⟩⟩).2.2.2.2 rfl rfl rfl

/-- C6: the final comment list of the analysis loop is the concatenation,
over every non-deleted file and every one of its chunks in order, of that
chunk's records — and a chunk whose model call yields the `null` outcome
contributes the empty record list, so every other chunk's contribution
still appears. -/
theorem c6_null_chunk (ai : String → Option (List ReviewComment))
    (prDetails : PRDetails) (files : List File) :
    (analyzeCode ai files prDetails).1
        = files.flatMap (fun file =>
            if file.«to» = some "/dev/null" then []
            else file.chunks.flatMap (chunkRecords ai prDetails file))
    ∧ ∀ (file : File) (chunk : Chunk),
        ai (createPrompt file chunk prDetails) = none →
        chunkRecords ai prDetails file chunk = [] := by
  constructor
  · rw [analyzeCode_eq]
    rfl
  · intro file chunk h
    simp [chunkRecords, h]

theorem c6_null_chunk_witness :
    chunkRecords (fun _ => none) ⟨"o", "r", 1, "t", "d"⟩ ⟨some "a.ts", []⟩ ⟨"@@", []⟩
      = [] :=
  (c6_null_chunk (fun _ => none) ⟨"o", "r", 1, "t", "d"⟩ []).2 ⟨some "a.ts", []⟩
    ⟨"@@", []⟩ rfl

/-- C7: every change line rendered into the prompt is prefixed by exactly
the spec's resolved line number — the new-file number when present,
otherwise the old-file number — for any change whose line numbers are
positive (as in every well-formed diff). -/
theorem c7_line_resolution (c : Change) (h : c.positive) :
    ∃ k, resolveSpec c.newLineNumber c.oldLineNumber = some k
      ∧ renderChange c = toString k ++ " " ++ c.content := by
  cases c with
  | add s n =>
    have hn : n ≠ 0 := Nat.pos_iff_ne_zero.mp h
    exact ⟨n, rfl, by simp [renderChange, Change.lnField, Change.content, hn]⟩
  | del s n =>
    have hn : n ≠ 0 := Nat.pos_iff_ne_zero.mp h
    exact ⟨n, rfl, by simp [renderChange, Change.lnField, Change.content, hn]⟩
  | normal s n1 n2 =>
    exact ⟨n2, rfl, by
      simp [renderChange, Change.lnField, Change.ln2Field, Change.content, optNatStr]⟩

theorem c7_line_resolution_witness :
    (∃ k, resolveSpec (Change.add "x" 5).newLineNumber (Change.add "x" 5).oldLineNumber
        = some k ∧ renderChange (Change.add "x" 5) = toString k ++ " " ++ (Change.add "x" 5).content)
    ∧ (∃ k, resolveSpec (Change.del "y" 3).newLineNumber (Change.del "y" 3).oldLineNumber
        = some k ∧ renderChange (Change.del "y" 3) = toString k ++ " " ++ (Change.del "y" 3).content) :=
  ⟨c7_line_resolution (Change.add "x" 5) (show 0 < 5 by decide),
   c7_line_resolution (Change.del "y" 3) (show 0 < 3 by decide)⟩

/-- Filtering away only elements with empty contribution does not change a
concatenated contribution. -/
lemma flatMap_filter_of_nil {α β : Type} (g : α → List β) (q : α → Bool)
    (l : List α) (h : ∀ a, q a = false → g a = []) :
    (l.filter q).flatMap g = l.flatMap g := by
  induction l with
  | nil => simp
  | cons a as ih =>
    cases hq : q a
    · simp [List.filter_cons, hq, ih, h a hq]
    · simp [List.filter_cons, hq, ih]

/-- C3: a deleted file (target path "/dev/null") contributes nothing to the
pipeline regardless of the configured exclusion patterns: running the path
filter and the analysis loop with such files removed beforehand yields the
same comments and the same built prompts — so no prompt is ever built for a
deleted file and it contributes zero comments. -/
theorem c3_deleted_file_skipped (ai : String → Option (List ReviewComment))
    (patterns : List String) (files : List File) (prDetails : PRDetails) :
    analyzeCode ai (filteredDiff patterns files) prDetails
      = analyzeCode ai
          (filteredDiff patterns (files.filter fun f => f.«to» != some "/dev/null"))
          prDetails := by
  have hswap :
      filteredDiff patterns (files.filter fun f => f.«to» != some "/dev/null")
        = (filteredDiff patterns files).filter fun f => f.«to» != some "/dev/null" := by
    simp only [filteredDiff, List.filter_filter]
    exact List.filter_congr fun a _ => Bool.and_comm _ _
  have hsent : ∀ f : File, (f.«to» != some "/dev/null") = false →
      f.«to» = some "/dev/null" := by
    intro f hf
    simpa using hf
  rw [hswap, analyzeCode_eq, analyzeCode_eq]
  rw [flatMap_filter_of_nil (fileRecords ai prDetails) _ _
        (fun f hf => by simp [fileRecords, hsent f hf]),
      flatMap_filter_of_nil (filePrompts prDetails) _ _
        (fun f hf => by simp [filePrompts, hsent f hf])]

/-- The first platform call of the post-fetch tail of `main` is always the
diff-fetch call it was entered with. -/
lemma mainAfterDiff_calls_head (parse : String → List File)
    (ai : String → Option (List ReviewComment)) (prDetails : PRDetails)
    (excludeInput : String) (c : Call) (diff : Option String) :
    (mainAfterDiff parse ai prDetails excludeInput [c] diff).calls.head? = some c := by
  cases diff with
  | none => rfl
  | some d =>
    by_cases hd : d = ""
    · simp [mainAfterDiff, hd]
    · simp only [mainAfterDiff, hd, if_neg hd]
      split <;> first | rfl | (split <;> rfl)

/-- C9: an event action that is neither "opened" nor "synchronize" makes the
run perform no diff fetch, build no prompts and submit no review, completing
with exit code 0; an "opened" action's first platform call fetches the PR's
full-range diff; a "synchronize" action's first platform call compares the
event's before revision against its after revision. -/
theorem c9_event_dispatch (parse : String → List File)
    (ai : String → Option (List ReviewComment)) (prDetails : PRDetails)
    (eventData : EventData) (openedDiff : Option String)
    (syncDiff excludeInput : String) :
    (eventData.action ≠ "opened" → eventData.action ≠ "synchronize" →
        runMain parse ai prDetails eventData openedDiff syncDiff excludeInput
          = ⟨[], [], 0⟩)
    ∧ (eventData.action = "opened" →
        (runMain parse ai prDetails eventData openedDiff syncDiff excludeInput).calls.head?
          = some (Call.getDiff prDetails.owner prDetails.repo prDetails.pull_number))
    ∧ (eventData.action = "synchronize" →
        (runMain parse ai prDetails eventData openedDiff syncDiff excludeInput).calls.head?
          = some (Call.compareCommits prDetails.owner prDetails.repo
              eventData.before eventData.after)) := by
  refine ⟨?_, ?_, ?_⟩
  · intro h1 h2
    simp [runMain, h1, h2]
  · intro h
    simp [runMain, h, mainAfterDiff_calls_head]
  · intro h
    have hne : eventData.action ≠ "opened" := by rw [h]; decide
    simp [runMain, h, hne, mainAfterDiff_calls_head]

theorem c9_event_dispatch_witness :
    runMain (fun _ => []) (fun _ => none) ⟨"o", "r", 1, "t", "d"⟩ ⟨"closed", "b", "a"⟩
        none "" "" = ⟨[], [], 0⟩ :=
  (c9_event_dispatch (fun _ => []) (fun _ => none) ⟨"o", "r", 1, "t", "d"⟩
    ⟨"closed", "b", "a"⟩ none "" "").1 (by decide) (by decide)

/-- C8: on a run that reaches submission (here entered through an "opened"
event with a non-empty diff), the review-creation calls in the run's trace
are exactly one batched `createReview` call carrying the full aggregated
comment list with the fixed "COMMENT" disposition when that list is
non-empty, and there is no review-creation call at all when it is empty. -/
theorem c8_single_submission (parse : String → List File)
    (ai : String → Option (List ReviewComment)) (prDetails : PRDetails)
    (eventData : EventData) (openedDiff : Option String)
    (syncDiff excludeInput d : String)
    (h1 : eventData.action = "opened") (h2 : openedDiff = some d) (h3 : d ≠ "") :
    (runMain parse ai prDetails eventData openedDiff syncDiff excludeInput).calls.filter
        Call.isCreateReview
      = (if (analyzeCode ai (filteredDiff ((excludeInput.splitOn ",").map String.trim)
              (parse d)) prDetails).1 = []
         then []
         else [createReviewComment prDetails.owner prDetails.repo prDetails.pull_number
                (analyzeCode ai (filteredDiff ((excludeInput.splitOn ",").map String.trim)
                  (parse d)) prDetails).1]) := by
  subst h2
  by_cases hres : (analyzeCode ai (filteredDiff ((excludeInput.splitOn ",").map
      String.trim) (parse d)) prDetails).1 = []
  · simp [runMain, h1, mainAfterDiff, h3, hres, Call.isCreateReview]
  · have hlen : 0 < (analyzeCode ai (filteredDiff ((excludeInput.splitOn ",").map
        String.trim) (parse d)) prDetails).1.length := List.length_pos.mpr hres
    simp [runMain, h1, mainAfterDiff, h3, hres, hlen, createReviewComment,
      Call.isCreateReview]

theorem c8_single_submission_witness :
    (runMain (fun _ => []) (fun _ => none) ⟨"o", "r", 1, "t", "d"⟩ ⟨"opened", "b", "a"⟩
        (some "x") "" "").calls.filter Call.isCreateReview
      = (if (analyzeCode (fun _ => none) (filteredDiff ((("" : String).splitOn ",").map
              String.trim) ((fun _ => ([] : List File)) "x")) ⟨"o", "r", 1, "t", "d"⟩).1 = []
         then []
         else [createReviewComment "o" "r" 1
                (analyzeCode (fun _ => none) (filteredDiff ((("" : String).splitOn ",").map
                  String.trim) ((fun _ => ([] : List File)) "x")) ⟨"o", "r", 1, "t", "d"⟩).1]) :=
  c8_single_submission (fun _ => []) (fun _ => none) ⟨"o", "r", 1, "t", "d"⟩
    ⟨"opened", "b", "a"⟩ (some "x") "" "" "x" rfl rfl (by decide)

end CodeReview
